import Mathlib

/-!
Verification of the retrieval/metadata core of the `personal_rag` repository.

The development shallowly embeds the two core modules the claims concern:
`src/core/image_manager.py` (metadata store, image search, upload, delete) and
`src/core/document_manager.py` (text extraction, document insert, document search).

Modelling conventions:
* Python `dict` values persisted as JSON are modelled by an inductive `Json` type;
  `json.dump`/`json.load` round-tripping through the file is modelled at the level
  of parsed JSON documents (a `FileState` holds the parsed document, a corrupt or
  missing file being separate states), since the repository only ever reads files
  it wrote itself and Python's `json` module is value-faithful on such documents.
* The in-memory metadata mapping (a Python `dict`, which preserves insertion
  order and has unique keys) is modelled as an association list
  `List (String × ImageRecord)`; `dict` deletion and key-overwriting assignment
  are embedded accordingly.
* External effects (filesystem existence, file reads, the md5 digest, the
  embedding engine's returned nodes, timestamps) are passed as explicit
  parameters, so every definition is a pure function of the source code's logic.
* `str.lower` is modelled by `Char.toLower` mapping; both sides of every
  case-insensitivity statement use the same lowering function, so the
  correspondence statements are exact.
-/

namespace PersonalRag

/-- JSON values, the shape of data Python's `json` module reads and writes.
Numbers are restricted to integers since every numeric field the repository
persists (sizes, dimensions) is an `int`. -/
inductive Json where
  | str : String → Json
  | num : Int → Json
  | bool : Bool → Json
  | null : Json
  | arr : List Json → Json
  | obj : List (String × Json) → Json

/-- The optional image information block produced by
`ImageManager._extract_image_info` (width/height/format/mode/EXIF), which is
spread (`**image_info`) into the stored record; on extraction failure the
whole block is absent. EXIF entries keep arbitrary JSON values. -/
structure ImageInfo where
  width : Int
  height : Int
  format : String
  mode : String
  exif : List (String × Json)

/-- An image record as written by `ImageManager.add_image` into
`self.metadata[file_name]`. -/
structure ImageRecord where
  original_name : String
  path : String
  thumbnail_path : String
  category : String
  tags : List String
  upload_time : String
  size : Int
  info : Option ImageInfo

/-- The in-memory metadata mapping `self.metadata`: a Python dict from
file name to record, modelled as an insertion-ordered association list. -/
abbrev Store := List (String × ImageRecord)

/-- Encoding of a record into the JSON object `json.dump` writes for it
(field order as in the dict literal of `add_image`). -/
def encodeRecord (r : ImageRecord) : Json :=
  Json.obj (
    [("original_name", Json.str r.original_name),
     ("path", Json.str r.path),
     ("thumbnail_path", Json.str r.thumbnail_path),
     ("category", Json.str r.category),
     ("tags", Json.arr (r.tags.map Json.str)),
     ("upload_time", Json.str r.upload_time),
     ("size", Json.num r.size)] ++
    (match r.info with
     | none => []
     | some i =>
       [("width", Json.num i.width),
        ("height", Json.num i.height),
        ("format", Json.str i.format),
        ("mode", Json.str i.mode),
        ("exif", Json.obj i.exif)]))

/-- Encoding of the whole metadata mapping as one JSON document. -/
def encodeStore (m : Store) : Json :=
  Json.obj (m.map (fun e => (e.1, encodeRecord e.2)))

/-- Decode a JSON array of strings. -/
def decodeStrList : List Json → Option (List String)
  | [] => some []
  | Json.str s :: rest =>
    match decodeStrList rest with
    | some l => some (s :: l)
    | none => none
  | _ => none

/-- Decode one record object (inverse of `encodeRecord` on well-shaped input). -/
def decodeRecord : Json → Option ImageRecord
  | Json.obj (("original_name", Json.str onm) :: ("path", Json.str p) ::
      ("thumbnail_path", Json.str tp) :: ("category", Json.str c) ::
      ("tags", Json.arr ts) :: ("upload_time", Json.str ut) ::
      ("size", Json.num sz) :: rest) =>
    match decodeStrList ts with
    | none => none
    | some tags =>
      match rest with
      | [] => some ⟨onm, p, tp, c, tags, ut, sz, none⟩
      | [("width", Json.num w), ("height", Json.num h), ("format", Json.str f),
         ("mode", Json.str md), ("exif", Json.obj e)] =>
        some ⟨onm, p, tp, c, tags, ut, sz, some ⟨w, h, f, md, e⟩⟩
      | _ => none
  | _ => none

/-- Decode the full metadata document into a mapping. -/
def decodeStore : Json → Option Store
  | Json.obj entries => decodeStoreEntries entries
  | _ => none
where
  decodeStoreEntries : List (String × Json) → Option Store
    | [] => some []
    | (k, v) :: rest =>
      match decodeRecord v with
      | none => none
      | some r =>
        match decodeStoreEntries rest with
        | none => none
        | some m => some ((k, r) :: m)

/-- The state of the metadata file `data/image_metadata.json`: absent, present
but not valid JSON, or a parsed JSON document. -/
inductive FileState where
  | missing : FileState
  | corrupt : FileState
  | json : Json → FileState

/-- Model of `ImageManager._save_metadata`: serialise the whole in-memory
mapping into the backing file as one JSON document. -/
def save_metadata (m : Store) : FileState :=
  FileState.json (encodeStore m)

/-- Model of `ImageManager._load_metadata`: an absent file yields `{}`; a file whose
content fails to parse raises inside the `try`, the bare `except` returning
`{}`; a parsed document is returned (a document not of the mapping's shape
also yields the empty mapping in this typed embedding). -/
def load_metadata : FileState → Store
  | FileState.missing => []
  | FileState.corrupt => []
  | FileState.json j => (decodeStore j).getD []

/-! ### String helpers mirroring the Python primitives used by the core -/

/-- Python `str.lower`, modelled as per-character lowering. -/
def lowerStr (s : String) : String := String.mk (s.data.map Char.toLower)

/-- Python `needle in haystack` on strings: substring containment. -/
def strContains (needle haystack : String) : Bool :=
  decide (needle.data <:+: haystack.data)

/-- Python string slicing `s[:n]`: the first `n` characters. -/
def takeStr (s : String) (n : Nat) : String := String.mk (s.data.take n)

/-- Python `str.strip()` on the character list: drop whitespace from both ends. -/
def stripChars (l : List Char) : List Char :=
  ((l.dropWhile Char.isWhitespace).reverse.dropWhile Char.isWhitespace).reverse

/-- Python `str.strip()`. -/
def pyStrip (s : String) : String := String.mk (stripChars s.data)

/-- Index of the last occurrence of `c` in `l` (Python `str.rfind`, `none`
standing for `-1`). -/
def lastIndexOf (l : List Char) (c : Char) : Option Nat :=
  match l with
  | [] => none
  | a :: rest =>
    match lastIndexOf rest c with
    | some i => some (i + 1)
    | none => if a = c then some 0 else none

/-- Whether some character strictly between positions `lo` and `hi` of `l`
differs from a dot — the loop in CPython's `posixpath._splitext` that
protects dotfiles such as `.bashrc` from being treated as pure extensions. -/
def hasNonDot (l : List Char) (lo hi : Nat) : Bool :=
  ((l.drop lo).take (hi - lo)).any (fun ch => ch != '.')

/-- Python `os.path.splitext` (POSIX separators): split off the extension
starting at the last dot of the basename, unless the basename is all
leading dots up to that point. -/
def splitext (p : String) : String × String :=
  let l := p.data
  let sepIndex : Int := match lastIndexOf l '/' with | none => -1 | some i => i
  let dotIndex : Int := match lastIndexOf l '.' with | none => -1 | some i => i
  if sepIndex < dotIndex then
    if hasNonDot l (sepIndex + 1).toNat dotIndex.toNat then
      (String.mk (l.take dotIndex.toNat), String.mk (l.drop dotIndex.toNat))
    else (p, "")
  else (p, "")

/-- Python `os.path.basename` (POSIX separators). -/
def basename (p : String) : String :=
  match lastIndexOf p.data '/' with
  | none => p
  | some i => String.mk (p.data.drop (i + 1))

/-! ### Image search (`ImageManager.search_images`) -/

/-- One entry of the list `search_images` returns (the dict built per match). -/
structure SearchResult where
  file_name : String
  original_name : String
  path : String
  thumbnail_path : String
  category : String
  tags : List String
  width : Int
  height : Int
  size : Int
  upload_time : String
  format : String
deriving DecidableEq

/-- The result dict `search_images` appends for a matching entry; the
width/height/format fields use the `.get` defaults `0`/`""` when the
image-info block is absent. -/
def mkSearchResult (file_name : String) (md : ImageRecord) : SearchResult where
  file_name := file_name
  original_name := md.original_name
  path := md.path
  thumbnail_path := md.thumbnail_path
  category := md.category
  tags := md.tags
  width := match md.info with | none => 0 | some i => i.width
  height := match md.info with | none => 0 | some i => i.height
  size := md.size
  upload_time := md.upload_time
  format := match md.info with | none => "" | some i => i.format

/-- The lowered haystack `f"{original_name} {' '.join(tags)}".lower()` used
for the text filter. -/
def imageSearchText (md : ImageRecord) : String :=
  lowerStr (md.original_name ++ " " ++ String.intercalate " " md.tags)

/-- The `continue` guard `category and category != "全部" and
metadata["category"] != category` (a `None` or empty category is falsy). -/
def skipByCategory (category : Option String) (md : ImageRecord) : Bool :=
  match category with
  | none => false
  | some c => c != "" && c != "全部" && md.category != c

/-- The `continue` guard for the tag filter (an empty tag list is falsy). -/
def skipByTags (tags : List String) (md : ImageRecord) : Bool :=
  !tags.isEmpty &&
    !(tags.any fun tag => (md.tags.map lowerStr).contains (lowerStr tag))

/-- The `continue` guard for the text filter (an empty query is falsy). -/
def skipByQuery (query : String) (md : ImageRecord) : Bool :=
  query != "" && !(strContains (lowerStr query) (imageSearchText md))

/-- The scan loop of `search_images` over `self.metadata.items()`, with
`fileExists` standing for `os.path.exists`. -/
def searchImagesLoop (query : String) (category : Option String)
    (tags : List String) (fileExists : String → Bool) : Store → List SearchResult
  | [] => []
  | (file_name, md) :: rest =>
    if skipByCategory category md then
      searchImagesLoop query category tags fileExists rest
    else if skipByTags tags md then
      searchImagesLoop query category tags fileExists rest
    else if skipByQuery query md then
      searchImagesLoop query category tags fileExists rest
    else if !fileExists md.path then
      searchImagesLoop query category tags fileExists rest
    else
      mkSearchResult file_name md :: searchImagesLoop query category tags fileExists rest

/-- The comparison of `results.sort(key=lambda x: x["upload_time"],
reverse=True)`: a stable descending sort on the timestamp string. -/
def uploadTimeDesc (a b : SearchResult) : Bool :=
  decide (b.upload_time ≤ a.upload_time)

/-- `ImageManager.search_images`: scan, filter, then sort descending by
upload time (Python's stable sort is modelled by the stable `mergeSort`). -/
def search_images (store : Store) (query : String) (category : Option String)
    (tags : List String) (fileExists : String → Bool) : List SearchResult :=
  (searchImagesLoop query category tags fileExists store).mergeSort uploadTimeDesc

/-- The specification's category predicate: equal to the requested category
when one is requested. -/
def specCategoryPass (category : Option String) (md : ImageRecord) : Bool :=
  match category with
  | none => true
  | some c => md.category == c

/-- The specification's per-record match predicate, written from the claim's
words: category equal when requested, some requested tag case-insensitively
equal to some stored tag when tags are requested, the query text a
case-insensitive substring of the name-plus-joined-tags text when given, and
the backing file still present. -/
def specImageMatch (query : String) (category : Option String)
    (tags : List String) (fileExists : String → Bool) (md : ImageRecord) : Bool :=
  specCategoryPass category md &&
  (tags.isEmpty || tags.any fun t => md.tags.any fun t2 => lowerStr t == lowerStr t2) &&
  (query == "" ||
    strContains (lowerStr query)
      (lowerStr (md.original_name ++ " " ++ String.intercalate " " md.tags))) &&
  fileExists md.path

/-! ### Image upload and delete (`ImageManager.add_image` / `delete_image`) -/

/-- A Streamlit `UploadedFile` as `add_image` consumes it: name, raw bytes,
reported size and MIME type. -/
structure UploadedFile where
  name : String
  content : List Nat
  size : Int
  type : String

/-- The MIME allow-list checked at the top of `add_image`. -/
def image_types : List String :=
  ["image/jpeg", "image/png", "image/gif", "image/bmp"]

/-- The generated file id
`f"{hashlib.md5(data).hexdigest()[:8]}_{uploaded_file.name}"`, with the md5
hex digest supplied as a function of the content bytes. -/
def make_file_name (md5hex : List Nat → String) (f : UploadedFile) : String :=
  takeStr (md5hex f.content) 8 ++ "_" ++ f.name

/-- Python dict assignment `d[key] = r`: overwrite in place when the key is
present (keeping its position), else append at the end. -/
def dictInsert (store : Store) (key : String) (r : ImageRecord) : Store :=
  if store.any (fun e => e.1 == key) then
    store.map (fun e => if e.1 == key then (key, r) else e)
  else store ++ [(key, r)]

/-- `ImageManager.add_image`: reject disallowed MIME types, compute the
hash-prefixed file name, write the file and its thumbnail (the disk is a list
of existing paths; `genThumb` models `_generate_thumbnail`, `extractInfo`
models `_extract_image_info` with `none` for the failure case `{}`), then
store the record under the file name and persist. `now` is
`datetime.now().isoformat()`. -/
def add_image (md5hex : List Nat → String) (genThumb : String → String)
    (extractInfo : String → Option ImageInfo) (now : String)
    (store : Store) (disk : List String) (f : UploadedFile)
    (category : String) (tags : List String) : Bool × Store × List String :=
  if !(image_types.contains f.type) then (false, store, disk)
  else
    let file_name := make_file_name md5hex f
    let dest_path := "data/images/" ++ file_name
    let disk1 := if disk.contains dest_path then disk else disk ++ [dest_path]
    let thumbnail_path := genThumb dest_path
    let disk2 :=
      if disk1.contains thumbnail_path then disk1 else disk1 ++ [thumbnail_path]
    let record : ImageRecord :=
      ⟨f.name, dest_path, thumbnail_path, category, tags, now, f.size,
        extractInfo dest_path⟩
    (true, dictInsert store file_name record, disk2)

/-- `ImageManager.delete_image`: for a known id remove the raw file and the
thumbnail from disk (each only if present), drop the entry from the mapping,
persist, and return success; an unknown id returns failure with nothing
changed. -/
def delete_image (store : Store) (disk : List String) (file_name : String) :
    Bool × Store × List String :=
  match store.lookup file_name with
  | none => (false, store, disk)
  | some md =>
    let disk1 := disk.filter (fun p => p != md.path)
    let disk2 := disk1.filter (fun p => p != md.thumbnail_path)
    (true, store.filter (fun e => e.1 != file_name), disk2)

/-! ### Text extraction and document ingestion (`DocumentManager`) -/

/-- The file-reading effects `_extract_text_from_file` performs, passed in
explicitly: reading a text file as UTF-8, extracting the pages of a PDF, and
the paragraphs of a docx. An `Except.error` carries `str(e)` of the raised
exception. -/
structure ExtractEnv where
  readText : String → Except String String
  readPdfPages : String → Except String (List String)
  readDocxParas : String → Except String (List String)

/-- `DocumentManager._extract_text_from_file`: dispatch on the lowercased
extension; text files are returned verbatim, PDF pages and docx paragraphs
are each concatenated with a trailing newline; an unsupported extension or a
caught exception yields the corresponding sentinel string. -/
def extract_text_from_file (env : ExtractEnv) (file_path : String) : String :=
  let file_ext := lowerStr (splitext file_path).2
  if file_ext = ".txt" ∨ file_ext = ".md" then
    match env.readText file_path with
    | Except.ok s => s
    | Except.error e => "文件读取错误: " ++ e
  else if file_ext = ".pdf" then
    match env.readPdfPages file_path with
    | Except.ok pages => String.join (pages.map (fun p => p ++ "\n"))
    | Except.error e => "文件读取错误: " ++ e
  else if file_ext = ".docx" then
    match env.readDocxParas file_path with
    | Except.ok paras => String.join (paras.map (fun p => p ++ "\n"))
    | Except.error e => "文件读取错误: " ++ e
  else "不支持的文件格式: " ++ file_ext

/-- The metadata dict attached to an ingested document. -/
structure DocMetadata where
  file_path : String
  file_name : String
  category : String
  file_type : String
  file_size : Int
deriving DecidableEq

/-- A document as inserted into the vector index. -/
structure Document where
  text : String
  metadata : DocMetadata
deriving DecidableEq

/-- The `supported_extensions` list of `add_document`. -/
def supported_extensions : List String := [".txt", ".md", ".pdf", ".docx"]

/-- `DocumentManager.add_document`: reject unsupported extensions, extract
the content, reject stripped-empty content, else insert the document (the
vector index is modelled at document granularity as the list of inserted
documents; `getSize` models `os.path.getsize`). -/
def add_document (env : ExtractEnv) (getSize : String → Int)
    (file_path category : String) (index : List Document) :
    Bool × List Document :=
  let file_ext := lowerStr (splitext file_path).2
  if !(supported_extensions.contains file_ext) then (false, index)
  else
    let content := extract_text_from_file env file_path
    if pyStrip content = "" then (false, index)
    else
      (true, index ++ [⟨content,
        ⟨file_path, basename file_path, category, file_ext, getSize file_path⟩⟩])

/-! ### Document search (`DocumentManager.search_documents`) -/

/-- A source node as returned by the query engine: chunk text, similarity
score (an abstract exact-ordered numeric type stands in for the float), and
the chunk's metadata. -/
structure SourceNode where
  text : String
  score : ℚ
  metadata : DocMetadata

/-- One entry of the list `search_documents` returns. -/
structure DocResult where
  content : String
  file_name : String
  category : String
  file_type : String
  file_size : Int
  score : ℚ
deriving DecidableEq

/-- The result dict built per node: the preview is the node text, truncated
to its first 300 characters plus `"..."` when longer than 300. -/
def mkDocResult (n : SourceNode) : DocResult where
  content := if n.text.length > 300 then takeStr n.text 300 ++ "..." else n.text
  file_name := n.metadata.file_name
  category := n.metadata.category
  file_type := n.metadata.file_type
  file_size := n.metadata.file_size
  score := n.score

/-- The `continue` guard of the category filter in `search_documents`. -/
def docSkipByCategory (category : Option String) (resultCategory : String) : Bool :=
  match category with
  | none => false
  | some c => c != "" && c != "全部" && resultCategory != c

/-- The result loop of `DocumentManager.search_documents` over
`response.source_nodes` (the engine was asked for `similarity_top_k = top_k`
nodes; the nodes themselves are an input here since the engine is external). -/
def search_documents : List SourceNode → Option String → List DocResult
  | [], _ => []
  | n :: rest, category =>
    let result := mkDocResult n
    if docSkipByCategory category result.category then
      search_documents rest category
    else result :: search_documents rest category

theorem decodeStrList_encode (ts : List String) :
    decodeStrList (ts.map Json.str) = some ts := by
  induction ts with
  | nil => rfl
  | cons t ts ih => simp [decodeStrList, ih]

theorem decodeRecord_encode (r : ImageRecord) :
    decodeRecord (encodeRecord r) = some r := by
  obtain ⟨onm, p, tp, c, tags, ut, sz, info⟩ := r
  cases info with
  | none => simp [encodeRecord, decodeRecord, decodeStrList_encode]
  | some i => simp [encodeRecord, decodeRecord, decodeStrList_encode]

theorem decodeStoreEntries_encode (m : Store) :
    decodeStore.decodeStoreEntries (m.map (fun e => (e.1, encodeRecord e.2))) =
      some m := by
  induction m with
  | nil => rfl
  | cons e m ih => simp [decodeStore.decodeStoreEntries, decodeRecord_encode, ih]

theorem decodeStore_encode (m : Store) :
    decodeStore (encodeStore m) = some m := by
  simp [decodeStore, encodeStore, decodeStoreEntries_encode]

/-- C3: saving any metadata mapping and loading it back returns the same
mapping, field for field. -/
theorem save_load_roundtrip (m : Store) :
    load_metadata (save_metadata m) = m := by
  simp [load_metadata, save_metadata, decodeStore_encode]

/-- C4: `load` returns the stored mapping when the file exists and parses as a
metadata document; it returns the empty mapping on a missing file, and the
empty mapping (never an error) on a corrupt/unparsable file. -/
theorem load_metadata_total :
    (∀ (j : Json) (m : Store), decodeStore j = some m →
      load_metadata (FileState.json j) = m) ∧
    load_metadata FileState.missing = [] ∧
    load_metadata FileState.corrupt = [] := by
  refine ⟨?_, rfl, rfl⟩
  intro j m h
  simp [load_metadata, h]

/-- Witness for C4 at a concrete one-record mapping. -/
theorem load_metadata_total_witness :
    load_metadata (FileState.json (encodeStore
      [("a.png", ⟨"a.png", "data/images/a.png", "data/thumbnails/a_thumb.png",
        "general", ["beach"], "2024-01-01T00:00:00", 10, none⟩)])) =
      [("a.png", ⟨"a.png", "data/images/a.png", "data/thumbnails/a_thumb.png",
        "general", ["beach"], "2024-01-01T00:00:00", 10, none⟩)] :=
  load_metadata_total.1 _ _ (decodeStore_encode _)

/-! ### Concrete fixtures used by counterexamples and witnesses -/

/-- A file system on which reading "a.txt" succeeds, the file's content
happening to equal the extractor's read-failure sentinel string. -/
def envReadOk : ExtractEnv :=
  ⟨fun _ => Except.ok "文件读取错误: boom",
   fun _ => Except.error "x", fun _ => Except.error "x"⟩

/-- A file system on which reading "a.txt" raises with message "boom". -/
def envReadFail : ExtractEnv :=
  ⟨fun _ => Except.error "boom",
   fun _ => Except.error "x", fun _ => Except.error "x"⟩

/-- A file system whose text files hold only whitespace. -/
def envBlank : ExtractEnv :=
  ⟨fun _ => Except.ok " \n ",
   fun _ => Except.error "x", fun _ => Except.error "x"⟩

/-- A stand-in md5 hex digest used by witnesses: two distinct 8-character
outputs for two contents. -/
def md5Stub : List Nat → String :=
  fun c => if c = [0] then "aaaaaaaa" else "bbbbbbbb"

/-- A concrete upload with content bytes `[0]`. -/
def fileA : UploadedFile := ⟨"x.png", [0], 1, "image/png"⟩

/-- A concrete upload with content bytes `[1]`. -/
def fileB : UploadedFile := ⟨"x.png", [1], 1, "image/png"⟩

/-- A concrete stored record used by the deletion witness. -/
def recDel : ImageRecord :=
  ⟨"A", "data/images/f.png", "data/thumbnails/f_thumb.png", "general", [],
    "2024", 1, none⟩

/-! ### Image search: characterization lemmas -/

theorem searchImagesLoop_eq (query : String) (category : Option String)
    (tags : List String) (fileExists : String → Bool) (store : Store) :
    searchImagesLoop query category tags fileExists store =
      (store.filter (fun e => !skipByCategory category e.2 && !skipByTags tags e.2 &&
        !skipByQuery query e.2 && fileExists e.2.path)).map
        (fun e => mkSearchResult e.1 e.2) := by
  induction store with
  | nil => rfl
  | cons e rest ih =>
    obtain ⟨fn, md⟩ := e
    cases hc : skipByCategory category md <;>
      cases ht : skipByTags tags md <;>
        cases hq : skipByQuery query md <;>
          cases hf : fileExists md.path <;>
            simp [searchImagesLoop, hc, ht, hq, hf, ih, List.filter_cons]

theorem search_images_perm_loop (store : Store) (query : String)
    (category : Option String) (tags : List String) (fileExists : String → Bool) :
    (search_images store query category tags fileExists).Perm
      (searchImagesLoop query category tags fileExists store) :=
  List.mergeSort_perm _ _

theorem search_images_sorted (store : Store) (query : String)
    (category : Option String) (tags : List String) (fileExists : String → Bool) :
    (search_images store query category tags fileExists).Pairwise
      (fun a b => b.upload_time ≤ a.upload_time) := by
  have h := @List.sorted_mergeSort SearchResult uploadTimeDesc
    (fun a b c hab hbc => by
      simp only [uploadTimeDesc, decide_eq_true_eq] at hab hbc ⊢
      exact le_trans hbc hab)
    (fun a b => by
      simp only [uploadTimeDesc]
      rcases le_total a.upload_time b.upload_time with h | h <;> simp [h])
    (searchImagesLoop query category tags fileExists store)
  exact h.imp (fun hab => by simpa [uploadTimeDesc] using hab)

theorem mem_search_images (store : Store) (query : String)
    (category : Option String) (tags : List String) (fileExists : String → Bool)
    (r : SearchResult) :
    r ∈ search_images store query category tags fileExists ↔
      ∃ e ∈ store, (!skipByCategory category e.2 && !skipByTags tags e.2 &&
        !skipByQuery query e.2 && fileExists e.2.path) = true ∧
        r = mkSearchResult e.1 e.2 := by
  rw [search_images, List.mem_mergeSort, searchImagesLoop_eq]
  simp only [List.mem_map, List.mem_filter]
  constructor
  · rintro ⟨e, ⟨he, hp⟩, hr⟩
    exact ⟨e, he, hp, hr.symm⟩
  · rintro ⟨e, he, hp, hr⟩
    exact ⟨e, ⟨he, hp⟩, hr.symm⟩

theorem contains_map_lower (tag : String) (l : List String) :
    (l.map lowerStr).contains (lowerStr tag) =
      l.any fun t2 => lowerStr tag == lowerStr t2 := by
  induction l with
  | nil => rfl
  | cons a l ih => rw [List.map_cons, List.contains_cons, List.any_cons, ih]

theorem pass_eq_specImageMatch (query : String) (category : Option String)
    (tags : List String) (fileExists : String → Bool) (md : ImageRecord)
    (hcat : ∀ c, category = some c → c ≠ "" ∧ c ≠ "全部") :
    (!skipByCategory category md && !skipByTags tags md &&
      !skipByQuery query md && fileExists md.path) =
      specImageMatch query category tags fileExists md := by
  have hc : (!skipByCategory category md) = specCategoryPass category md := by
    cases category with
    | none => rfl
    | some c =>
      have e1 : (c != "") = true := by simpa [bne_iff_ne] using (hcat c rfl).1
      have e2 : (c != "全部") = true := by simpa [bne_iff_ne] using (hcat c rfl).2
      rw [show skipByCategory (some c) md =
        (c != "" && c != "全部" && md.category != c) from rfl, e1, e2]
      simp [specCategoryPass, bne]
  have ht : (!skipByTags tags md) =
      (tags.isEmpty || tags.any fun t => md.tags.any fun t2 => lowerStr t == lowerStr t2) := by
    simp only [skipByTags, Bool.not_and, Bool.not_not, contains_map_lower]
  have hq : (!skipByQuery query md) =
      (query == "" ||
        strContains (lowerStr query)
          (lowerStr (md.original_name ++ " " ++ String.intercalate " " md.tags))) := by
    simp only [skipByQuery, Bool.not_and, Bool.not_not, bne, imageSearchText]
  rw [show specImageMatch query category tags fileExists md =
    (specCategoryPass category md &&
      (tags.isEmpty || tags.any fun t => md.tags.any fun t2 => lowerStr t == lowerStr t2) &&
      (query == "" ||
        strContains (lowerStr query)
          (lowerStr (md.original_name ++ " " ++ String.intercalate " " md.tags))) &&
      fileExists md.path) from rfl, ← hc, ← ht, ← hq]

/-- C1 (amended): for every store and every query in which the requested
category, when present, is neither the empty string nor the wildcard "全部",
`search_images` returns exactly the projections of the stored records that
pass all supplied filters conjunctively — category equal to the requested
one, some requested tag case-insensitively equal to a stored tag when tags
are given, the query text a case-insensitive substring of the original name
plus joined tags when given, and the backing file still on disk (the store
itself is not mutated, excluded stale entries staying put) — as a
permutation characterization together with the list being ordered by
descending upload timestamp. -/
theorem search_images_characterization (store : Store) (query : String)
    (category : Option String) (tags : List String) (fileExists : String → Bool)
    (hcat : ∀ c, category = some c → c ≠ "" ∧ c ≠ "全部") :
    (search_images store query category tags fileExists).Perm
      ((store.filter (fun e => specImageMatch query category tags fileExists e.2)).map
        (fun e => mkSearchResult e.1 e.2)) ∧
    (search_images store query category tags fileExists).Pairwise
      (fun a b => b.upload_time ≤ a.upload_time) := by
  refine ⟨?_, search_images_sorted store query category tags fileExists⟩
  refine (search_images_perm_loop store query category tags fileExists).trans ?_
  rw [searchImagesLoop_eq,
    List.filter_congr
      (fun e _ => pass_eq_specImageMatch query category tags fileExists e.2 hcat)]

/-- Witness for C1 at a concrete two-record store with a category and a tag
filter supplied. -/
theorem search_images_characterization_witness :
    (search_images
      [("a.png", ⟨"Sunset.JPG", "pa", "ta", "travel", ["Beach"], "2024-02", 1, none⟩),
       ("b.png", ⟨"City.png", "pb", "tb", "travel", ["city"], "2024-03", 2, none⟩)]
      "" (some "travel") ["BEACH"] (fun _ => true)).Perm
      (([("a.png", ⟨"Sunset.JPG", "pa", "ta", "travel", ["Beach"], "2024-02", 1, none⟩),
         ("b.png", ⟨"City.png", "pb", "tb", "travel", ["city"], "2024-03", 2, none⟩)].filter
          (fun e => specImageMatch "" (some "travel") ["BEACH"] (fun _ => true) e.2)).map
        (fun e => mkSearchResult e.1 e.2)) ∧
    (search_images
      [("a.png", ⟨"Sunset.JPG", "pa", "ta", "travel", ["Beach"], "2024-02", 1, none⟩),
       ("b.png", ⟨"City.png", "pb", "tb", "travel", ["city"], "2024-03", 2, none⟩)]
      "" (some "travel") ["BEACH"] (fun _ => true)).Pairwise
      (fun a b => b.upload_time ≤ a.upload_time) :=
  search_images_characterization _ _ _ _ _
    (fun c hc => by cases hc; exact ⟨by decide, by decide⟩)

/-- A stored record whose category is "general", used to exhibit the
wildcard behaviour of the category argument. -/
def cexRecord : ImageRecord :=
  ⟨"f.png", "data/images/f.png", "data/thumbnails/f_thumb.png", "general", [],
    "2024-01-01T00:00:00", 1, none⟩

/-- C1 counterexample: with the category argument "全部" supplied, a record
whose stored category is "general" ≠ "全部" is still returned, so the claim's
"category equal to the requested category when one is specified" fails as
stated. -/
theorem search_images_wildcard_breaks_claim :
    mkSearchResult "f.png" cexRecord ∈
      search_images [("f.png", cexRecord)] "" (some "全部") [] (fun _ => true) ∧
    cexRecord.category ≠ "全部" :=
  ⟨List.mem_mergeSort.mpr (by decide), by decide⟩

/-! ### The category wildcard (C9) -/

theorem searchImagesLoop_category_congr (query : String) (tags : List String)
    (fileExists : String → Bool) (c1 c2 : Option String)
    (h : ∀ md : ImageRecord, skipByCategory c1 md = skipByCategory c2 md)
    (store : Store) :
    searchImagesLoop query c1 tags fileExists store =
      searchImagesLoop query c2 tags fileExists store := by
  induction store with
  | nil => rfl
  | cons e rest ih =>
    obtain ⟨fn, md⟩ := e
    cases hc : skipByCategory c2 md <;>
      cases ht : skipByTags tags md <;>
        cases hq : skipByQuery query md <;>
          cases hf : fileExists md.path <;>
            simp [searchImagesLoop, h md, hc, ht, hq, hf, ih]

theorem search_documents_eq (nodes : List SourceNode) (category : Option String) :
    search_documents nodes category =
      (nodes.filter
        (fun n => !docSkipByCategory category (mkDocResult n).category)).map
        mkDocResult := by
  induction nodes with
  | nil => rfl
  | cons n rest ih =>
    cases h : docSkipByCategory category (mkDocResult n).category <;>
      simp [search_documents, h, ih, List.filter_cons]

/-- C9 (amended): the category argument "全部" — and likewise the empty
string, which is falsy in the guard — disables category filtering in both
image search and document search, giving exactly the results of a query with
no category at all; every other non-matching category string excludes
records. -/
theorem category_filter_wildcards (store : Store) (query : String)
    (tags : List String) (fileExists : String → Bool) (nodes : List SourceNode) :
    (search_images store query (some "全部") tags fileExists =
      search_images store query none tags fileExists) ∧
    (search_images store query (some "") tags fileExists =
      search_images store query none tags fileExists) ∧
    (search_documents nodes (some "全部") = search_documents nodes none) ∧
    (search_documents nodes (some "") = search_documents nodes none) ∧
    (∀ c, c ≠ "全部" → c ≠ "" →
      (∀ r ∈ search_images store query (some c) tags fileExists,
        r.category = c) ∧
      (∀ r ∈ search_documents nodes (some c), r.category = c)) := by
  refine ⟨?_, ?_, ?_, ?_, ?_⟩
  · unfold search_images
    rw [searchImagesLoop_category_congr query tags fileExists (some "全部") none
      (fun md => by simp [skipByCategory]) store]
  · unfold search_images
    rw [searchImagesLoop_category_congr query tags fileExists (some "") none
      (fun md => by simp [skipByCategory]) store]
  · rw [search_documents_eq, search_documents_eq]
    congr 1
  · rw [search_documents_eq, search_documents_eq]
    congr 1
  · intro c hc1 hc2
    have e1 : (c != "") = true := by simpa [bne_iff_ne] using hc2
    have e2 : (c != "全部") = true := by simpa [bne_iff_ne] using hc1
    constructor
    · intro r hr
      rw [mem_search_images] at hr
      obtain ⟨e, _, hp, hr⟩ := hr
      rw [Bool.and_eq_true, Bool.and_eq_true, Bool.and_eq_true] at hp
      have hskip : skipByCategory (some c) e.2 = false := by
        have h1 := hp.1.1.1
        rwa [Bool.not_eq_true'] at h1
      rw [show skipByCategory (some c) e.2 =
        (c != "" && c != "全部" && e.2.category != c) from rfl, e1, e2,
        Bool.true_and, Bool.true_and, bne_eq_false_iff_eq] at hskip
      subst hr
      exact hskip
    · intro r hr
      rw [search_documents_eq] at hr
      obtain ⟨n, hn, hr⟩ := List.mem_map.mp hr
      have hp := (List.mem_filter.mp hn).2
      have hskip : docSkipByCategory (some c) (mkDocResult n).category = false := by
        rwa [Bool.not_eq_true'] at hp
      rw [show docSkipByCategory (some c) (mkDocResult n).category =
        (c != "" && c != "全部" && (mkDocResult n).category != c) from rfl, e1, e2,
        Bool.true_and, Bool.true_and, bne_eq_false_iff_eq] at hskip
      subst hr
      exact hskip

/-- Witness for C9 at a concrete store, node list and category. -/
theorem category_filter_wildcards_witness :
    (search_images [("f.png", ⟨"A", "p", "t", "general", [], "2024", 1, none⟩)]
        "" (some "全部") [] (fun _ => true) =
      search_images [("f.png", ⟨"A", "p", "t", "general", [], "2024", 1, none⟩)]
        "" none [] (fun _ => true)) ∧
    (search_images [("f.png", ⟨"A", "p", "t", "general", [], "2024", 1, none⟩)]
        "" (some "") [] (fun _ => true) =
      search_images [("f.png", ⟨"A", "p", "t", "general", [], "2024", 1, none⟩)]
        "" none [] (fun _ => true)) ∧
    (search_documents [⟨"short", 1, ⟨"fp", "fn", "general", ".txt", 3⟩⟩]
        (some "全部") =
      search_documents [⟨"short", 1, ⟨"fp", "fn", "general", ".txt", 3⟩⟩] none) ∧
    (search_documents [⟨"short", 1, ⟨"fp", "fn", "general", ".txt", 3⟩⟩]
        (some "") =
      search_documents [⟨"short", 1, ⟨"fp", "fn", "general", ".txt", 3⟩⟩] none) ∧
    (∀ c, c ≠ "全部" → c ≠ "" →
      (∀ r ∈ search_images [("f.png", ⟨"A", "p", "t", "general", [], "2024", 1, none⟩)]
          "" (some c) [] (fun _ => true), r.category = c) ∧
      (∀ r ∈ search_documents [⟨"short", 1, ⟨"fp", "fn", "general", ".txt", 3⟩⟩]
          (some c), r.category = c)) :=
  category_filter_wildcards _ _ _ _ _

/-- A second wildcard-exhibiting record, for the empty-string case. -/
def cexRecordEmptyCat : ImageRecord :=
  ⟨"g.png", "data/images/g.png", "data/thumbnails/g_thumb.png", "general", [],
    "2024-01-01T00:00:00", 1, none⟩

/-- C9 counterexample: the empty string is a second category value that
disables filtering — it differs from "全部" and from the stored category
"general", yet the record is returned, refuting "every other non-matching
category string excludes records". -/
theorem empty_category_breaks_claim :
    "" ≠ "全部" ∧ cexRecordEmptyCat.category ≠ "" ∧
    mkSearchResult "g.png" cexRecordEmptyCat ∈
      search_images [("g.png", cexRecordEmptyCat)] "" (some "") [] (fun _ => true) :=
  ⟨by decide, by decide, List.mem_mergeSort.mpr (by decide)⟩

/-! ### Document search (C2) -/

/-- C2: when the query engine returns at most `top_k` source nodes ordered by
descending similarity score (its contract for `similarity_top_k = top_k`),
the document query returns at most `top_k` results, ordered by descending
score, each carrying a preview equal to the chunk text when it has at most
300 characters and otherwise its first 300 characters followed by an
ellipsis marker, together with the chunk's original metadata (file name,
category, file type, file size). -/
theorem search_documents_spec (nodes : List SourceNode) (category : Option String)
    (top_k : Nat) (hlen : nodes.length ≤ top_k)
    (hsorted : nodes.Pairwise (fun a b => b.score ≤ a.score)) :
    (search_documents nodes category).length ≤ top_k ∧
    (search_documents nodes category).Pairwise (fun a b => b.score ≤ a.score) ∧
    ∀ r ∈ search_documents nodes category, ∃ n ∈ nodes,
      r = mkDocResult n ∧
      (n.text.length ≤ 300 → r.content = n.text) ∧
      (300 < n.text.length → r.content = takeStr n.text 300 ++ "...") ∧
      r.file_name = n.metadata.file_name ∧ r.category = n.metadata.category ∧
      r.file_type = n.metadata.file_type ∧ r.file_size = n.metadata.file_size ∧
      r.score = n.score := by
  rw [search_documents_eq]
  refine ⟨?_, ?_, ?_⟩
  · rw [List.length_map]
    exact le_trans (List.length_filter_le _ _) hlen
  · rw [List.pairwise_map]
    exact hsorted.filter _
  · intro r hr
    obtain ⟨n, hn, hr⟩ := List.mem_map.mp hr
    subst hr
    refine ⟨n, (List.mem_filter.mp hn).1, rfl, ?_, ?_, rfl, rfl, rfl, rfl, rfl⟩
    · intro hle
      rw [show (mkDocResult n).content =
        (if n.text.length > 300 then takeStr n.text 300 ++ "..." else n.text) from rfl,
        if_neg (by omega)]
    · intro hgt
      rw [show (mkDocResult n).content =
        (if n.text.length > 300 then takeStr n.text 300 ++ "..." else n.text) from rfl,
        if_pos (by omega)]

/-- Witness for C2 at a concrete two-node response. -/
theorem search_documents_spec_witness :
    (search_documents
      [⟨"hello", 2, ⟨"fp1", "a.txt", "general", ".txt", 5⟩⟩,
       ⟨"world", 1, ⟨"fp2", "b.txt", "work", ".txt", 5⟩⟩] none).length ≤ 5 ∧
    (search_documents
      [⟨"hello", 2, ⟨"fp1", "a.txt", "general", ".txt", 5⟩⟩,
       ⟨"world", 1, ⟨"fp2", "b.txt", "work", ".txt", 5⟩⟩] none).Pairwise
      (fun a b => b.score ≤ a.score) ∧
    ∀ r ∈ search_documents
      [⟨"hello", 2, ⟨"fp1", "a.txt", "general", ".txt", 5⟩⟩,
       ⟨"world", 1, ⟨"fp2", "b.txt", "work", ".txt", 5⟩⟩] none, ∃ n ∈
      [⟨"hello", 2, ⟨"fp1", "a.txt", "general", ".txt", 5⟩⟩,
       ⟨"world", 1, ⟨"fp2", "b.txt", "work", ".txt", 5⟩⟩],
      r = mkDocResult n ∧
      (n.text.length ≤ 300 → r.content = n.text) ∧
      (300 < n.text.length → r.content = takeStr n.text 300 ++ "...") ∧
      r.file_name = n.metadata.file_name ∧ r.category = n.metadata.category ∧
      r.file_type = n.metadata.file_type ∧ r.file_size = n.metadata.file_size ∧
      r.score = n.score :=
  search_documents_spec _ none 5 (by decide) (by decide)

/-! ### Text extraction (C5) -/

/-- C5 (amended): text extraction never escapes its boundary: an unsupported
extension yields the deterministic sentinel string "不支持的文件格式: ext",
the same for every call and independent of the file system; a read or parse
failure yields the sentinel string "文件读取错误: cause" carrying the
underlying cause. These sentinels are ordinary strings, not a distinguished
error type, so they are not in general distinguishable from extracted
content, and the caller indexes rather than checks them. -/
theorem extract_text_sentinels (env env2 : ExtractEnv) (file_path : String) :
    (lowerStr (splitext file_path).2 ∉ supported_extensions →
      extract_text_from_file env file_path =
        "不支持的文件格式: " ++ lowerStr (splitext file_path).2 ∧
      extract_text_from_file env2 file_path =
        extract_text_from_file env file_path) ∧
    (∀ e, (lowerStr (splitext file_path).2 = ".txt" ∨
        lowerStr (splitext file_path).2 = ".md") →
      env.readText file_path = Except.error e →
      extract_text_from_file env file_path = "文件读取错误: " ++ e) ∧
    (∀ e, lowerStr (splitext file_path).2 = ".pdf" →
      env.readPdfPages file_path = Except.error e →
      extract_text_from_file env file_path = "文件读取错误: " ++ e) ∧
    (∀ e, lowerStr (splitext file_path).2 = ".docx" →
      env.readDocxParas file_path = Except.error e →
      extract_text_from_file env file_path = "文件读取错误: " ++ e) := by
  refine ⟨?_, ?_, ?_, ?_⟩
  · intro hns
    simp only [supported_extensions, List.mem_cons, List.not_mem_nil, or_false,
      not_or] at hns
    obtain ⟨h1, h2, h3, h4⟩ := hns
    have hmain : ∀ env3 : ExtractEnv, extract_text_from_file env3 file_path =
        "不支持的文件格式: " ++ lowerStr (splitext file_path).2 := by
      intro env3
      simp only [extract_text_from_file]
      rw [if_neg (by tauto), if_neg h3, if_neg h4]
    exact ⟨hmain env, (hmain env2).trans (hmain env).symm⟩
  · intro e h herr
    simp only [extract_text_from_file]
    rw [if_pos h, herr]
  · intro e h herr
    simp only [extract_text_from_file]
    rw [if_neg (by rw [h]; decide), if_pos h, herr]
  · intro e h herr
    simp only [extract_text_from_file]
    rw [if_neg (by rw [h]; decide), if_neg (by rw [h]; decide), if_pos h, herr]

/-- Witness for C5: an unsupported extension, and a failing read of a text
file, each produce their sentinel. -/
theorem extract_text_sentinels_witness :
    (extract_text_from_file envReadFail "doc.xyz" = "不支持的文件格式: .xyz" ∧
      extract_text_from_file envBlank "doc.xyz" =
        extract_text_from_file envReadFail "doc.xyz") ∧
    extract_text_from_file envReadFail "a.txt" = "文件读取错误: " ++ "boom" :=
  ⟨(extract_text_sentinels envReadFail envBlank "doc.xyz").1 (by decide),
   (extract_text_sentinels envReadFail envBlank "a.txt").2.1 "boom"
     (by decide) rfl⟩

/-- C5 counterexample: a successful read whose content equals the
read-failure sentinel extracts to the very same string a failing read
produces, so the error result is not distinguishable from extracted content;
moreover `add_document` performs no such check and indexes the failure
sentinel as document text. -/
theorem extract_error_indistinguishable :
    envReadOk.readText "a.txt" = Except.ok "文件读取错误: boom" ∧
    envReadFail.readText "a.txt" = Except.error "boom" ∧
    extract_text_from_file envReadOk "a.txt" =
      extract_text_from_file envReadFail "a.txt" ∧
    add_document envReadFail (fun _ => 1) "a.txt" "general" [] =
      (true, [⟨"文件读取错误: boom", ⟨"a.txt", "a.txt", "general", ".txt", 1⟩⟩]) :=
  ⟨rfl, rfl, by decide, by decide⟩

/-! ### Document ingestion rejects empty content (C8) -/

/-- C8: when the extracted text of a file strips to empty, `add_document`
fails and leaves the index unchanged (nothing is embedded or stored); as a
consequence every document in the index after any call either was already
there or has non-empty stripped text. -/
theorem add_document_empty_guard (env : ExtractEnv) (getSize : String → Int)
    (file_path category : String) (index : List Document) :
    (pyStrip (extract_text_from_file env file_path) = "" →
      add_document env getSize file_path category index = (false, index)) ∧
    (∀ d ∈ (add_document env getSize file_path category index).2,
      d ∈ index ∨ pyStrip d.text ≠ "") := by
  constructor
  · intro h
    rw [add_document]
    cases hs : supported_extensions.contains (lowerStr (splitext file_path).2)
    · rfl
    · rw [Bool.not_true, if_neg (by simp), if_pos h]
  · intro d hd
    rw [add_document] at hd
    cases hs : supported_extensions.contains (lowerStr (splitext file_path).2) <;>
      rw [hs] at hd
    · exact Or.inl hd
    · rw [Bool.not_true, if_neg (by simp)] at hd
      by_cases hc : pyStrip (extract_text_from_file env file_path) = ""
      · rw [if_pos hc] at hd
        exact Or.inl hd
      · rw [if_neg hc] at hd
        rcases List.mem_append.mp hd with hmem | hmem
        · exact Or.inl hmem
        · right
          rw [List.mem_singleton] at hmem
          subst hmem
          exact hc

/-- Witness for C8: a whitespace-only text file is rejected and the index is
untouched. -/
theorem add_document_empty_guard_witness :
    add_document envBlank (fun _ => 1) "a.txt" "general" [] = (false, []) :=
  (add_document_empty_guard envBlank (fun _ => 1) "a.txt" "general" []).1 (by decide)

/-! ### File-id generation (C6) -/

/-- C6: the generated file id is a deterministic function of the file content
and the original name, and contents whose 8-character digest prefixes differ
produce different ids (the digest function having md5's fixed output length,
at least 8 here); the "overwhelming probability" of distinct prefixes is a
property of md5 itself, outside the program. -/
theorem make_file_name_deterministic (md5hex : List Nat → String)
    (f g : UploadedFile)
    (h8f : 8 ≤ (md5hex f.content).length) (h8g : 8 ≤ (md5hex g.content).length) :
    (f.content = g.content → f.name = g.name →
      make_file_name md5hex f = make_file_name md5hex g) ∧
    (takeStr (md5hex f.content) 8 ≠ takeStr (md5hex g.content) 8 →
      make_file_name md5hex f ≠ make_file_name md5hex g) := by
  constructor
  · intro hc hn
    rw [make_file_name, make_file_name, hc, hn]
  · intro hne heq
    apply hne
    have hdata := congrArg String.data heq
    rw [make_file_name, make_file_name, String.data_append, String.data_append,
      String.data_append, String.data_append, List.append_assoc,
      List.append_assoc] at hdata
    have hlenf : (takeStr (md5hex f.content) 8).data.length = 8 := by
      rw [show (takeStr (md5hex f.content) 8).data =
        (md5hex f.content).data.take 8 from rfl, List.length_take]
      exact min_eq_left h8f
    have hleng : (takeStr (md5hex g.content) 8).data.length = 8 := by
      rw [show (takeStr (md5hex g.content) 8).data =
        (md5hex g.content).data.take 8 from rfl, List.length_take]
      exact min_eq_left h8g
    have h := (List.append_inj hdata (hlenf.trans hleng.symm)).1
    exact congrArg String.mk h

/-- Witness for C6 at two concrete uploads and a concrete digest stub. -/
theorem make_file_name_deterministic_witness :
    (fileA.content = fileA.content → fileA.name = fileA.name →
      make_file_name md5Stub fileA = make_file_name md5Stub fileA) ∧
    (takeStr (md5Stub fileA.content) 8 ≠ takeStr (md5Stub fileB.content) 8 →
      make_file_name md5Stub fileA ≠ make_file_name md5Stub fileB) :=
  ⟨(make_file_name_deterministic md5Stub fileA fileA (by decide) (by decide)).1,
   (make_file_name_deterministic md5Stub fileA fileB (by decide) (by decide)).2⟩

/-! ### Image deletion (C7) -/

/-- C7: deleting a stored file id returns success, removes the entry from the
mapping along with the raw image file and the thumbnail file from disk, and
no subsequent query ever returns that id; deleting an unknown id returns
failure with the store and disk unchanged. -/
theorem delete_image_spec (store : Store) (disk : List String) (fid : String) :
    (∀ md, store.lookup fid = some md →
      (delete_image store disk fid).1 = true ∧
      (delete_image store disk fid).2.1.lookup fid = none ∧
      md.path ∉ (delete_image store disk fid).2.2 ∧
      md.thumbnail_path ∉ (delete_image store disk fid).2.2 ∧
      ∀ query category tags fileExists r,
        r ∈ search_images (delete_image store disk fid).2.1
          query category tags fileExists →
        r.file_name ≠ fid) ∧
    (store.lookup fid = none → delete_image store disk fid = (false, store, disk)) := by
  constructor
  · intro md hmd
    have hd : delete_image store disk fid =
        (true, store.filter (fun e => e.1 != fid),
          (disk.filter (fun p => p != md.path)).filter
            (fun p => p != md.thumbnail_path)) := by
      rw [delete_image, hmd]
    rw [hd]
    refine ⟨rfl, ?_, ?_, ?_, ?_⟩
    · rw [List.lookup_eq_none_iff]
      intro p hp
      exact bne_iff_ne.mpr (Ne.symm (bne_iff_ne.mp (List.mem_filter.mp hp).2))
    · intro hmem
      exact absurd rfl
        (bne_iff_ne.mp (List.mem_filter.mp (List.mem_filter.mp hmem).1).2)
    · intro hmem
      exact absurd rfl (bne_iff_ne.mp (List.mem_filter.mp hmem).2)
    · intro query category tags fileExists r hr
      rw [mem_search_images] at hr
      obtain ⟨e, he, _, hr⟩ := hr
      have hne := bne_iff_ne.mp (List.mem_filter.mp he).2
      subst hr
      exact hne
  · intro hnone
    rw [delete_image, hnone]

/-- Witness for C7: deleting the only stored id succeeds and empties the
relevant state; deleting an unknown id fails and changes nothing. -/
theorem delete_image_spec_witness :
    (delete_image [("f.png", recDel)]
      ["data/images/f.png", "data/thumbnails/f_thumb.png"] "f.png").1 = true ∧
    (delete_image [("f.png", recDel)]
      ["data/images/f.png", "data/thumbnails/f_thumb.png"] "f.png").2.1.lookup
        "f.png" = none ∧
    delete_image ([] : Store) ([] : List String) "g.png" = (false, [], []) :=
  ⟨((delete_image_spec [("f.png", recDel)]
      ["data/images/f.png", "data/thumbnails/f_thumb.png"] "f.png").1 recDel
      rfl).1,
   ((delete_image_spec [("f.png", recDel)]
      ["data/images/f.png", "data/thumbnails/f_thumb.png"] "f.png").1 recDel
      rfl).2.1,
   (delete_image_spec [] [] "g.png").2 rfl⟩

/-! ### Re-uploading identical content (C10) -/

theorem lookup_map_replace (store : Store) (key : String) (r : ImageRecord)
    (h : store.any (fun e => e.1 == key) = true) :
    (store.map (fun e => if e.1 == key then (key, r) else e)).lookup key = some r := by
  induction store with
  | nil => simp at h
  | cons e rest ih =>
    obtain ⟨k, v⟩ := e
    rw [List.map_cons]
    by_cases h2 : ((k, v).1 == key) = true
    · rw [if_pos h2, List.lookup_cons, beq_self_eq_true]
    · rw [if_neg h2]
      have h3 : rest.any (fun e => e.1 == key) = true := by
        cases hx : ((k, v).1 == key)
        · rw [List.any_cons, hx, Bool.false_or] at h
          exact h
        · exact absurd hx h2
      have hne : (key == k) = false := by
        rw [beq_eq_false_iff_ne]
        intro hkey
        exact h2 (beq_iff_eq.mpr hkey.symm)
      rw [List.lookup_cons, hne]
      exact ih h3

theorem lookup_append_of_not_any (store : Store) (key : String) (r : ImageRecord)
    (h : store.any (fun e => e.1 == key) = false) :
    (store ++ [(key, r)]).lookup key = some r := by
  induction store with
  | nil => rw [List.nil_append, List.lookup_cons, beq_self_eq_true]
  | cons e rest ih =>
    obtain ⟨k, v⟩ := e
    have hk : ((k, v).1 == key) = false := by
      cases hx : ((k, v).1 == key)
      · rfl
      · rw [List.any_cons, hx, Bool.true_or] at h
        exact absurd h (by decide)
    have hrest : rest.any (fun e => e.1 == key) = false := by
      cases hx : rest.any (fun e => e.1 == key)
      · rfl
      · rw [List.any_cons, hx, Bool.or_true] at h
        exact absurd h (by decide)
    have hne : (key == k) = false := by
      rw [beq_eq_false_iff_ne]
      intro hkey
      rw [beq_eq_false_iff_ne] at hk
      exact hk hkey.symm
    rw [List.cons_append, List.lookup_cons, hne]
    exact ih hrest

theorem dictInsert_lookup (store : Store) (key : String) (r : ImageRecord) :
    (dictInsert store key r).lookup key = some r := by
  rw [dictInsert]
  by_cases h : store.any (fun e => e.1 == key) = true
  · rw [if_pos h]
    exact lookup_map_replace store key r h
  · rw [if_neg h]
    have h2 : store.any (fun e => e.1 == key) = false := by
      cases hx : store.any (fun e => e.1 == key)
      · rfl
      · exact absurd hx h
    exact lookup_append_of_not_any store key r h2

theorem dictInsert_map_fst_of_any (store : Store) (key : String) (r : ImageRecord)
    (h : store.any (fun e => e.1 == key) = true) :
    (dictInsert store key r).map Prod.fst = store.map Prod.fst := by
  rw [dictInsert, if_pos h, List.map_map]
  apply List.map_congr_left
  intro e _
  by_cases h2 : (e.1 == key) = true
  · simp only [Function.comp_apply, if_pos h2]
    exact (beq_iff_eq.mp h2).symm
  · simp only [Function.comp_apply, if_neg h2]

theorem dictInsert_any (store : Store) (key : String) (r : ImageRecord) :
    (dictInsert store key r).any (fun e => e.1 == key) = true := by
  rw [dictInsert]
  by_cases h : store.any (fun e => e.1 == key) = true
  · rw [if_pos h, List.any_eq_true]
    rw [List.any_eq_true] at h
    obtain ⟨e, he, hk⟩ := h
    exact ⟨(key, r), List.mem_map.mpr ⟨e, he, if_pos hk⟩, beq_iff_eq.mpr rfl⟩
  · rw [if_neg h, List.any_eq_true]
    exact ⟨(key, r), List.mem_append.mpr (Or.inr (List.mem_singleton.mpr rfl)),
      beq_iff_eq.mpr rfl⟩

theorem dictInsert_nodupkeys (store : Store) (key : String) (r : ImageRecord)
    (h : (store.map Prod.fst).Nodup) :
    ((dictInsert store key r).map Prod.fst).Nodup := by
  by_cases hany : store.any (fun e => e.1 == key) = true
  · rw [dictInsert_map_fst_of_any store key r hany]
    exact h
  · rw [dictInsert, if_neg hany, List.map_append]
    rw [List.nodup_append]
    refine ⟨h, List.nodup_singleton _, ?_⟩
    intro x hx hx2
    simp only [List.map_cons, List.map_nil, List.mem_singleton] at hx2
    subst hx2
    obtain ⟨e, he, hfst⟩ := List.mem_map.mp hx
    apply hany
    rw [List.any_eq_true]
    exact ⟨e, he, beq_iff_eq.mpr hfst⟩

theorem dictInsert_length_of_any (store : Store) (key : String) (r : ImageRecord)
    (h : store.any (fun e => e.1 == key) = true) :
    (dictInsert store key r).length = store.length := by
  rw [dictInsert, if_pos h, List.length_map]

theorem filter_key_length_of_nodup (store : Store) (key : String)
    (hnod : (store.map Prod.fst).Nodup)
    (hany : store.any (fun e => e.1 == key) = true) :
    (store.filter (fun e => e.1 == key)).length = 1 := by
  induction store with
  | nil => simp at hany
  | cons e rest ih =>
    rw [List.map_cons, List.nodup_cons] at hnod
    rw [List.filter_cons]
    by_cases h2 : (e.1 == key) = true
    · rw [if_pos h2]
      have hnil : rest.filter (fun e2 => e2.1 == key) = [] := by
        rw [List.filter_eq_nil_iff]
        intro a ha hk
        apply hnod.1
        rw [beq_iff_eq.mp h2, ← beq_iff_eq.mp hk]
        exact List.mem_map.mpr ⟨a, ha, rfl⟩
      rw [hnil]
      rfl
    · rw [if_neg h2]
      have h3 : rest.any (fun e2 => e2.1 == key) = true := by
        cases hx : (e.1 == key)
        · rw [List.any_cons, hx, Bool.false_or] at hany
          exact hany
        · exact absurd hx h2
      exact ih hnod.2 h3

/-- C10: uploading identical bytes with the same original name twice leaves
exactly one record under the generated file id: the second upload succeeds
and overwrites the first record in place with a record carrying the second
upload time, and the store's record count does not grow. -/
theorem add_image_reupload_overwrites (md5hex : List Nat → String)
    (genThumb : String → String) (extractInfo : String → Option ImageInfo)
    (now1 now2 : String) (store : Store) (disk : List String)
    (f : UploadedFile) (category : String) (tags : List String)
    (htype : image_types.contains f.type = true)
    (hnodup : (store.map Prod.fst).Nodup) :
    ∃ s1 d1 s2 d2,
      add_image md5hex genThumb extractInfo now1 store disk f category tags =
        (true, s1, d1) ∧
      add_image md5hex genThumb extractInfo now2 s1 d1 f category tags =
        (true, s2, d2) ∧
      s2.length = s1.length ∧
      (s2.filter (fun e => e.1 == make_file_name md5hex f)).length = 1 ∧
      s2.lookup (make_file_name md5hex f) =
        some ⟨f.name, "data/images/" ++ make_file_name md5hex f,
          genThumb ("data/images/" ++ make_file_name md5hex f), category, tags,
          now2, f.size, extractInfo ("data/images/" ++ make_file_name md5hex f)⟩ := by
  have hadd : ∀ (now : String) (st : Store) (dk : List String),
      (add_image md5hex genThumb extractInfo now st dk f category tags).1 = true ∧
      (add_image md5hex genThumb extractInfo now st dk f category tags).2.1 =
        dictInsert st (make_file_name md5hex f)
          ⟨f.name, "data/images/" ++ make_file_name md5hex f,
            genThumb ("data/images/" ++ make_file_name md5hex f), category, tags,
            now, f.size, extractInfo ("data/images/" ++ make_file_name md5hex f)⟩ := by
    intro now st dk
    rw [add_image, htype]
    exact ⟨rfl, rfl⟩
  refine ⟨(add_image md5hex genThumb extractInfo now1 store disk f category tags).2.1,
    (add_image md5hex genThumb extractInfo now1 store disk f category tags).2.2,
    (add_image md5hex genThumb extractInfo now2
      (add_image md5hex genThumb extractInfo now1 store disk f category tags).2.1
      (add_image md5hex genThumb extractInfo now1 store disk f category tags).2.2
      f category tags).2.1,
    (add_image md5hex genThumb extractInfo now2
      (add_image md5hex genThumb extractInfo now1 store disk f category tags).2.1
      (add_image md5hex genThumb extractInfo now1 store disk f category tags).2.2
      f category tags).2.2, ?_, ?_, ?_, ?_, ?_⟩
  · rw [← (hadd now1 store disk).1]
  · rw [← (hadd now2 _ _).1]
  · rw [(hadd now2 _ _).2, (hadd now1 store disk).2]
    exact dictInsert_length_of_any _ _ _ (dictInsert_any store _ _)
  · rw [(hadd now2 _ _).2, (hadd now1 store disk).2]
    exact filter_key_length_of_nodup _ _
      (dictInsert_nodupkeys _ _ _ (dictInsert_nodupkeys _ _ _ hnodup))
      (dictInsert_any _ _ _)
  · rw [(hadd now2 _ _).2]
    exact dictInsert_lookup _ _ _

/-- Witness for C10 at a concrete upload into an empty store. -/
theorem add_image_reupload_overwrites_witness :
    ∃ s1 d1 s2 d2,
      add_image md5Stub (fun p => p ++ ".thumb") (fun _ => none) "2024-01"
        [] [] fileA "general" ["tag"] = (true, s1, d1) ∧
      add_image md5Stub (fun p => p ++ ".thumb") (fun _ => none) "2024-02"
        s1 d1 fileA "general" ["tag"] = (true, s2, d2) ∧
      s2.length = s1.length ∧
      (s2.filter (fun e => e.1 == make_file_name md5Stub fileA)).length = 1 ∧
      s2.lookup (make_file_name md5Stub fileA) =
        some ⟨fileA.name, "data/images/" ++ make_file_name md5Stub fileA,
          ("data/images/" ++ make_file_name md5Stub fileA) ++ ".thumb", "general",
          ["tag"], "2024-02", fileA.size, none⟩ :=
  add_image_reupload_overwrites md5Stub (fun p => p ++ ".thumb") (fun _ => none)
    "2024-01" "2024-02" [] [] fileA "general" ["tag"] (by decide) (by decide)

end PersonalRag
